import Mathlib

/-!
Verification of the `simple-s3-server` repository (Go): a filesystem-backed
S3-compatible object store behind an HTTP dispatcher with optional AWS SigV4
authentication.

Shallow embedding notes.
* Paths are Go strings; `goClean` / `goJoin` embed the Go standard library
  functions `path.Clean` and `path.Join` (pure lexical processing of
  slash-separated paths), which `FileBucket.getObjectPath` uses.  String
  processing is done by structural recursion over the character list
  (`String.data`) so every definition evaluates.
* The filesystem is modelled as a map from path strings to file data.  A file
  is either raw content bytes (with a modification time) or a serialized
  `Metadata` record; the JSON encoding performed by `json.Marshal` /
  `json.Unmarshal` on the fixed flat `Metadata` struct round-trips and is
  abstracted as the injection `FileData.meta`.
* `crypto/md5` hex digesting is an external pure primitive; the model takes it
  as an explicit function argument `md5 : List Nat → String`.
* The `signature` package (SigV4 verifier, chunked payload decoder) is not part
  of the object-store/dispatcher sources; the dispatcher consumes only its
  verdict and its wrapped reader, so the model takes the verdict and the
  decoder as oracle inputs.
-/

namespace S3

/-- Split a character list on `'/'`, keeping empty segments, as Go's byte-wise
scan of a slash-separated path does (`cur` accumulates the current segment in
reverse). -/
def splitSlash : List Char → List Char → List (List Char)
  | [], cur => [cur.reverse]
  | c :: rest, cur =>
    if c = '/' then cur.reverse :: splitSlash rest []
    else splitSlash rest (c :: cur)

/-- Join segments with `'/'` separators (Go `strings.Join(segs, "/")`). -/
def joinSegs : List (List Char) → List Char
  | [] => []
  | [s] => s
  | s :: t :: rest => s ++ '/' :: joinSegs (t :: rest)

/-- One pass of Go `path.Clean`'s element processing over the slash-separated
segments.  `rooted` tells whether the original path began with a slash; `acc`
is the output stack (in reverse).  Mirrors the `lazybuf` algorithm of Go's
`path.Clean`: empty and `.` elements are dropped, `..` pops a previous element
when possible, is dropped at the root of a rooted path, and accumulates at the
front of an unrooted path (the `dotdot` barrier). -/
def cleanSegs (rooted : Bool) : List (List Char) → List (List Char) → List (List Char)
  | [], acc => acc.reverse
  | seg :: rest, acc =>
    if seg = [] ∨ seg = ['.'] then cleanSegs rooted rest acc
    else if seg = ['.', '.'] then
      match acc with
      | [] => if rooted then cleanSegs rooted rest [] else cleanSegs rooted rest [['.', '.']]
      | top :: accTail =>
        if top = ['.', '.'] then cleanSegs rooted rest (['.', '.'] :: top :: accTail)
        else cleanSegs rooted rest accTail
    else cleanSegs rooted rest (seg :: acc)

/-- Embedding of Go `path.Clean` on the character list of a path. -/
def goCleanChars (cs : List Char) : List Char :=
  if cs = [] then ['.']
  else
    let rooted := cs.head? = some '/'
    let segs := cleanSegs rooted (splitSlash cs []) []
    if segs = [] then (if rooted then ['/'] else ['.'])
    else (if rooted then ['/'] else []) ++ joinSegs segs

/-- Embedding of Go `path.Clean` (the slash-path version): lexical
simplification of a slash-separated path. -/
def goClean (s : String) : String := ⟨goCleanChars s.data⟩

/-- The un-cleaned concatenation performed by Go `path.Join` before it calls
`path.Clean`: leading empty elements are skipped, after which all elements
(empty ones included) are joined with `'/'`. -/
def goJoinRawChars : List (List Char) → List Char
  | [] => []
  | e :: rest => if e = [] then goJoinRawChars rest else joinSegs (e :: rest)

/-- Embedding of Go `path.Join`: join the elements and clean the result;
if every element is empty the result is the empty string. -/
def goJoin (elems : List String) : String :=
  let raw := goJoinRawChars (elems.map String.data)
  if raw = [] then "" else ⟨goCleanChars raw⟩

/-- Embedding of `bucket.Metadata`: the s3 metadata record persisted as JSON next to each
object's content. -/
structure Metadata where
  Digest : String
  ContentLength : Nat
  ContentType : String
  ModTime : Int
deriving DecidableEq, Repr

/-- Embedding of `bucket.FileBucket`: base path, bucket name, and the direct-store layout
flag. -/
structure FileBucket where
  path : String
  name : String
  directStore : Bool
deriving DecidableEq, Repr

/-- Embedding of `FileBucket.getObjectPath`: maps a request key to the pair
(content-file path, metadata-file path).  In direct-store layout content lives
at `basePath/name/key` and metadata at `basePath/.metadata/name/key`; otherwise
content is at `basePath/name/key/.content` and metadata at
`basePath/name/key/metadata.json`. -/
def FileBucket.getObjectPath (f : FileBucket) (key : String) : String × String :=
  if f.directStore then
    (goJoin [f.path, f.name, key], goJoin [f.path, ".metadata", f.name, key])
  else
    (goJoin [f.path, f.name, key, ".content"], goJoin [f.path, f.name, key, "metadata.json"])

/-! ### Filesystem model

The filesystem is a map from path strings to file data.  OS faults other than
non-existence (permissions, disk full) are outside the model: `os.MkdirAll`,
`os.Create`, `Write` and `Sync` always succeed, `os.Open` and `os.Remove` fail
exactly on a missing path, and `json.Unmarshal` fails exactly on a file that
does not hold a serialized `Metadata` record. -/

/-- A stored file: either raw object content (with the file's modification
time, as set at creation) or a serialized `Metadata` record. -/
inductive FileData
  | bytes (content : List Nat) (modTime : Int)
  | meta (m : Metadata)
deriving DecidableEq, Repr

abbrev FS := String → Option FileData

def FS.empty : FS := fun _ => none

def FS.write (fs : FS) (p : String) (d : FileData) : FS :=
  fun q => if q = p then some d else fs q

def FS.erase (fs : FS) (p : String) : FS :=
  fun q => if q = p then none else fs q

/-- The two error conditions the bucket code distinguishes: `os.IsNotExist`
errors and `json.Unmarshal` failures. -/
inductive FsErr
  | notExist
  | unmarshal
deriving DecidableEq, Repr

/-- Embedding of `bucket.Object`: key, content type, attached metadata record, and the
bytes delivered by the object's `io.ReadCloser`.  Every `Object` the Go code
constructs carries a non-nil `Metadata` pointer, so the field is plain. -/
structure Object where
  Key : String
  ContentType : String
  Meta : Metadata
  stream : List Nat
deriving DecidableEq, Repr

/-- Embedding of `FileBucket.PutObjectMetadata`: marshal the record (round-trips for this
flat struct) and write it at the metadata path, returning the record. -/
def FileBucket.PutObjectMetadata (f : FileBucket) (key : String) (m : Metadata)
    (fs : FS) : Metadata × FS :=
  let mp := (f.getObjectPath key).2
  (m, fs.write mp (.meta m))

/-- Embedding of `FileBucket.GetObjectMetadata`: open the metadata path — absence yields
`(nil, nil)`, i.e. `ok none`; a present file is unmarshaled, failing if it is
not a serialized `Metadata` record. -/
def FileBucket.GetObjectMetadata (f : FileBucket) (key : String) (fs : FS) :
    Except FsErr (Option Metadata) :=
  let mp := (f.getObjectPath key).2
  match fs mp with
  | none => .ok none
  | some (.meta m) => .ok (some m)
  | some (.bytes _ _) => .error .unmarshal

/-- Embedding of `FileBucket.PutObject`: create/truncate the content file, write the
streamed bytes, compute the hex `crypto/md5` digest of exactly those bytes,
and persist a fresh metadata record via `PutObjectMetadata`.  `md5` is the
external digest primitive; `now` is `time.Now().UnixMilli()`. -/
def FileBucket.PutObject (md5 : List Nat → String) (f : FileBucket) (o : Object)
    (now : Int) (fs : FS) : Metadata × FS :=
  let cp := (f.getObjectPath o.Key).1
  let fs1 := fs.write cp (.bytes o.stream now)
  f.PutObjectMetadata o.Key
    { Digest := md5 o.stream
      ContentLength := o.stream.length
      ContentType := o.ContentType
      ModTime := now } fs1

/-- Embedding of `FileBucket.createMetadataFromFile`: stat and hash the stored content file
and persist a synthesized metadata record (content type
`application/octet-stream`, the file's size and modification time).  A content
path holding a serialized metadata record has no byte representation in this
model and is unreachable through the bucket operations; it is mapped to the
unmarshal error. -/
def FileBucket.createMetadataFromFile (md5 : List Nat → String) (f : FileBucket)
    (key : String) (fs : FS) : Except FsErr (Metadata × FS) :=
  let cp := (f.getObjectPath key).1
  match fs cp with
  | none => .error .notExist
  | some (.bytes b t) =>
      .ok (f.PutObjectMetadata key
        { Digest := md5 b
          ContentLength := b.length
          ContentType := "application/octet-stream"
          ModTime := t } fs)
  | some (.meta _) => .error .unmarshal

/-- The bytes read from an open content file (the metadata case is unreachable
through the bucket operations). -/
def FileData.contentBytes : FileData → List Nat
  | .bytes b _ => b
  | .meta _ => []

/-- Embedding of `FileBucket.GetObject`: absence of the content file yields `(nil, nil)`;
otherwise the metadata is loaded, synthesized-and-persisted when the metadata
file is missing, and the object is returned with the content bytes. -/
def FileBucket.GetObject (md5 : List Nat → String) (f : FileBucket) (key : String)
    (fs : FS) : Except FsErr (Option Object × FS) :=
  let cp := (f.getObjectPath key).1
  match fs cp with
  | none => .ok (none, fs)
  | some fd =>
    match f.GetObjectMetadata key fs with
    | .error e => .error e
    | .ok (some m) => .ok (some ⟨key, m.ContentType, m, fd.contentBytes⟩, fs)
    | .ok none =>
      match f.createMetadataFromFile md5 key fs with
      | .error e => .error e
      | .ok (m, fs') => .ok (some ⟨key, m.ContentType, m, fd.contentBytes⟩, fs')

/-- Embedding of `FileBucket.DeleteObject`: remove the content file, then the metadata
file; each removal fails on a missing path, and a failure is returned after
any removals already performed. -/
def FileBucket.DeleteObject (f : FileBucket) (key : String) (fs : FS) :
    Option FsErr × FS :=
  let cp := (f.getObjectPath key).1
  let mp := (f.getObjectPath key).2
  match fs cp with
  | none => (some .notExist, fs)
  | some _ =>
    let fs1 := fs.erase cp
    match fs1 mp with
    | none => (some .notExist, fs1)
    | some _ => (none, fs1.erase mp)

/-! ### Credential store -/

/-- Modelled from the spec: the `signature.Credentials` record — `Credential:
\x7baccessKey, secretKey\x7d` (§3) — lives in the `signature` package, whose
source is not among the provided files; only its two fields are used here.
The zero value (both fields empty) is what `Get` returns on a miss. -/
structure Credentials where
  AccessKey : String
  SecretKey : String
deriving DecidableEq, Repr

/-- Embedding of `defaultCredentialStore`: the model of its `sync.Map` keyed by access key, with the
sequential semantics of `Load`/`Store`. -/
abbrev CredentialStore := String → Option Credentials

def CredentialStore.empty : CredentialStore := fun _ => none

/-- Embedding of `defaultCredentialStore.Put`: `Store(credentials.AccessKey, credentials)`. -/
def CredentialStore.Put (d : CredentialStore) (c : Credentials) : CredentialStore :=
  fun k => if k = c.AccessKey then some c else d k

/-- Embedding of `defaultCredentialStore.Get`: `Load(accessKey)`; a miss returns the zero
`Credentials` value and `false`, never an error. -/
def CredentialStore.Get (d : CredentialStore) (accessKey : String) : Credentials × Bool :=
  match d accessKey with
  | none => (⟨"", ""⟩, false)
  | some c => (c, true)

/-! ### HTTP server model

`V4SignVerify` and `newChunkedReader` belong to the `signature` package, whose
source is not among the provided files.  The dispatcher consumes only the
verifier's verdict (compared against `signature.ErrNone`) and the decoder's
output bytes, so the model takes the verdict as an input `SigResult` and the
decoder as a function argument `decode`.  Likewise `http.TimeFormat` rendering
of `Last-Modified` values is taken as a function argument `fmtTime`; no claim
inspects its output. -/

/-- The verdict of `signature.V4SignVerify`: `signature.ErrNone` or any other
failure value (distinguished by an abstract code). -/
inductive SigResult
  | errNone
  | fail (reason : Nat)
deriving DecidableEq, Repr

/-- The `s3server.Error` response value, as used by the handlers: its HTTP
status code (the XML body fields do not influence control flow). -/
structure Error where
  httpCode : Nat
deriving DecidableEq, Repr

/-- Embedding of `ErrWith(code, err)`: an error response with the given status code. -/
def ErrWith (code : Nat) : Error := ⟨code⟩

/-- Modelled from the spec: `ErrSignature` (in a source file not provided)
maps a verification failure to an HTTP error response; the spec maps
authentication failures to an unauthorized/forbidden/bad-request status (§7).
No claim depends on the concrete code; 403 is used. -/
def ErrSignature (_ : SigResult) : Error := ⟨403⟩

/-- An observable act of the handler on the `http.ResponseWriter`. -/
inductive HttpEvent
  | status (code : Nat)
  | xmlErrorBody
  | header (name value : String)
  | body (bs : List Nat)
  | xmlBody
deriving DecidableEq, Repr

/-- Embedding of `WriteError`: one `WriteHeader(err.httpCode)` followed by one write of the
marshaled XML error body. -/
def WriteError (e : Error) : List HttpEvent :=
  [.status e.httpCode, .xmlErrorBody]

inductive Method
  | head
  | put
  | delete
  | get
  | other
deriving DecidableEq, Repr

/-- An inbound HTTP request as the handlers read it: absent headers are the
empty string (Go `Header.Get`). -/
structure Request where
  method : Method
  urlPath : String
  contentType : String
  contentSha256 : String
  decodedContentLength : String
  hasLocationQuery : Bool
  body : List Nat
deriving DecidableEq, Repr

/-- Embedding of `strings.Trim(path, "/")`: strip leading and trailing slashes. -/
def trimSlashChars (cs : List Char) : List Char :=
  ((cs.dropWhile (· = '/')).reverse.dropWhile (· = '/')).reverse

/-- Embedding of `strings.SplitN(s, "/", 2)`: at most two pieces, the second holding the
rest of the string verbatim. -/
def splitN2 (cs : List Char) : List (List Char) :=
  match splitSlash cs [] with
  | [] => []
  | [a] => [a]
  | a :: rest => [a, joinSegs rest]

/-- The `uri` slice each handler computes:
`strings.SplitN(strings.Trim(r.URL.Path, "/"), "/", 2)`. -/
def requestURI (r : Request) : List String :=
  (splitN2 (trimSlashChars r.urlPath.data)).map fun cs => String.mk cs

/-- The `s3server.server` value: the bucket factory (`GetBucket` always
succeeds in the fault-free filesystem model, since `NewFileBucket` fails only
on `os.MkdirAll` faults) and the optional credential store. -/
structure Server where
  bucketFn : String → FileBucket
  credentials : Option CredentialStore

def streamingSentinel : String := "STREAMING-AWS4-HMAC-SHA256-PAYLOAD"

/-- Embedding of `server.HandlePutObject`: method check, bucket/key split, optional
chunked-reader wrapping guarded by the decoded-content-length requirement,
then `PutObject` and a quoted-digest `Etag`, `200`, and an empty body. -/
def Server.HandlePutObject (md5 : List Nat → String) (decode : List Nat → List Nat)
    (s : Server) (r : Request) (now : Int) (fs : FS) : List HttpEvent × FS :=
  if r.method ≠ .put then (WriteError (ErrWith 405), fs)
  else
    match requestURI r with
    | [bname, key] =>
      let payload := if r.contentSha256 = streamingSentinel then decode r.body else r.body
      if r.contentSha256 = streamingSentinel ∧ r.decodedContentLength = "" then
        (WriteError (ErrWith 400), fs)
      else
        let b := s.bucketFn bname
        let res := b.PutObject md5 ⟨key, r.contentType, ⟨"", 0, "", now⟩, payload⟩ now fs
        ([.header "Etag" ("\"" ++ res.1.Digest ++ "\""), .status 200, .body []], res.2)
    | _ => (WriteError (ErrWith 404), fs)

/-- Embedding of `server.HandleGetObject`: method check, the `?location` bucket query,
bucket/key split, then `GetObject` — errors map to 500, absence to 404, and a
hit streams the content after `Content-Type` / `Last-Modified` / `Etag`. -/
def Server.HandleGetObject (md5 : List Nat → String) (fmtTime : Int → String)
    (s : Server) (r : Request) (fs : FS) : List HttpEvent × FS :=
  if r.method ≠ .get then (WriteError (ErrWith 405), fs)
  else
    let uri := requestURI r
    if r.hasLocationQuery ∧ uri.length = 1 then ([.status 200, .xmlBody], fs)
    else
      match uri with
      | [bname, key] =>
        let b := s.bucketFn bname
        match b.GetObject md5 key fs with
        | .error _ => (WriteError (ErrWith 500), fs)
        | .ok (none, fs') => (WriteError (ErrWith 404), fs')
        | .ok (some o, fs') =>
          ([.header "Content-Type" o.ContentType,
            .header "Last-Modified" (fmtTime o.Meta.ModTime),
            .header "Etag" o.Meta.Digest,
            .status 200, .body o.stream], fs')
      | _ => (WriteError (ErrWith 404), fs)

/-- Embedding of `server.HandleDeleteObject`: method check, bucket/key split, then
`DeleteObject`; on error the 500 response is written but the handler does not
return, so the trailing `200` and empty body are written as well. -/
def Server.HandleDeleteObject (s : Server) (r : Request) (fs : FS) :
    List HttpEvent × FS :=
  if r.method ≠ .delete then (WriteError (ErrWith 405), fs)
  else
    match requestURI r with
    | [bname, key] =>
      let b := s.bucketFn bname
      let res := b.DeleteObject key fs
      ((match res.1 with
        | some _ => WriteError (ErrWith 500)
        | none => []) ++ [.status 200, .body []], res.2)
    | _ => (WriteError (ErrWith 404), fs)

/-- Embedding of `server.HandleGetObjectMetadata`: method check, bucket/key split, then
`GetObjectMetadata` — errors map to 500, absence to 404, and a hit answers
with the metadata headers, `200`, and an empty body. -/
def Server.HandleGetObjectMetadata (fmtTime : Int → String) (s : Server)
    (r : Request) (fs : FS) : List HttpEvent × FS :=
  if r.method ≠ .head then (WriteError (ErrWith 405), fs)
  else
    match requestURI r with
    | [bname, key] =>
      let b := s.bucketFn bname
      match b.GetObjectMetadata key fs with
      | .error _ => (WriteError (ErrWith 500), fs)
      | .ok none => (WriteError (ErrWith 404), fs)
      | .ok (some m) =>
        ([.header "Content-Type" m.ContentType,
          .header "Last-Modified" (fmtTime m.ModTime),
          .header "Etag" m.Digest,
          .status 200, .body []], fs)
    | _ => (WriteError (ErrWith 404), fs)

/-- The method switch at the tail of `server.ServeHTTP` (factored out of the
embedding of `ServeHTTP` verbatim): unlisted methods fall through with no
response. -/
def Server.dispatch (md5 : List Nat → String) (decode : List Nat → List Nat)
    (fmtTime : Int → String) (s : Server) (r : Request) (now : Int) (fs : FS) :
    List HttpEvent × FS :=
  match r.method with
  | .head => s.HandleGetObjectMetadata fmtTime r fs
  | .put => s.HandlePutObject md5 decode r now fs
  | .delete => s.HandleDeleteObject r fs
  | .get => s.HandleGetObject md5 fmtTime r fs
  | .other => ([], fs)

/-- Embedding of `server.ServeHTTP`: when a credential store is configured and the
`V4SignVerify` verdict is not `signature.ErrNone`, write the signature error
and return; otherwise dispatch on the method. -/
def Server.ServeHTTP (md5 : List Nat → String) (decode : List Nat → List Nat)
    (fmtTime : Int → String) (s : Server) (verdict : SigResult) (r : Request)
    (now : Int) (fs : FS) : List HttpEvent × FS :=
  if s.credentials.isSome ∧ verdict ≠ .errNone then
    (WriteError (ErrSignature verdict), fs)
  else
    s.dispatch md5 decode fmtTime r now fs

/-- Embedding of `WithBucket`: replace the bucket factory. -/
def WithBucket (fn : String → FileBucket) : Server → Server :=
  fun s => { s with bucketFn := fn }

/-- Embedding of `WithAuthStore`: install the given credential store. -/
def WithAuthStore (c : CredentialStore) : Server → Server :=
  fun s => { s with credentials := some c }

/-- Embedding of `WithAuth`: ensure a default credential store exists and `Put` each
configured access-key/secret-key pair (the Go `map` iteration becomes a list
fold; `signature.Credential(accessKey, secretKey)` builds the record). -/
def WithAuth (creds : List (String × String)) : Server → Server :=
  fun s =>
    let st := match s.credentials with
      | none => CredentialStore.empty
      | some st => st
    { s with credentials := some (creds.foldl (fun st kv => st.Put ⟨kv.1, kv.2⟩) st) }

/-- Embedding of `NewFileServer`: the default server — non-direct-store file buckets under
`basePath` and no credential store — with the options applied in order. -/
def NewFileServer (basePath : String) (options : List (Server → Server)) : Server :=
  options.foldl (fun s o => o s)
    { bucketFn := fun name => ⟨basePath, name, false⟩, credentials := none }

/-- Whether path `p` lies inside directory `dir`: it is `dir` itself or
extends `dir ++ "/"`. -/
def insideDir (dir p : String) : Bool :=
  p == dir || (dir.data ++ ['/']).isPrefixOf p.data

end S3

/-! ## Claim theorems -/

/-- C1: the claim — no object operation maps a key containing `.`/`..`
traversal segments to a filesystem path outside the bucket's own directory —
fails on the code.  `getObjectPath` feeds the key to Go `path.Join`, which
lexically resolves `..` instead of rejecting it: for the bucket at
`/data/b`, the key `../../etc/passwd` maps to `/etc/passwd/.content`, outside
the bucket directory `/data/b`, and the PUT handler accepts such a key (the
URL path `/b/../../etc/passwd` splits into bucket `b` and that key) and
writes the content file at the escaped path. -/
theorem c1_traversal_key_escapes_bucket_dir :
    (S3.FileBucket.getObjectPath ⟨"/data", "b", false⟩ "../../etc/passwd").1
      = "/etc/passwd/.content"
    ∧ S3.insideDir (S3.goJoin ["/data", "b"])
        (S3.FileBucket.getObjectPath ⟨"/data", "b", false⟩ "../../etc/passwd").1 = false
    ∧ S3.requestURI ⟨.put, "/b/../../etc/passwd", "", "", "", false, [7]⟩
      = ["b", "../../etc/passwd"]
    ∧ ((S3.NewFileServer "/data" []).HandlePutObject (fun _ => "") (fun bs => bs)
        ⟨.put, "/b/../../etc/passwd", "", "", "", false, [7]⟩ 0 S3.FS.empty).2
        "/etc/passwd/.content" = some (.bytes [7] 0) := by decide

/-- C2: on a server with a configured credential store, any `V4SignVerify`
verdict other than `ErrNone` makes `ServeHTTP` write exactly the one signature
error response (one status write and one error body) and return: no handler
runs and the filesystem state is returned unchanged. -/
theorem c2_sig_failure_writes_one_error_and_dispatches_nothing
    (md5 : List Nat → String) (decode : List Nat → List Nat)
    (fmtTime : Int → String) (s : S3.Server) (v : S3.SigResult) (r : S3.Request)
    (now : Int) (fs : S3.FS)
    (hc : s.credentials.isSome) (hv : v ≠ S3.SigResult.errNone) :
    s.ServeHTTP md5 decode fmtTime v r now fs
      = (S3.WriteError (S3.ErrSignature v), fs) := by
  simp [S3.Server.ServeHTTP, hc, hv]

/-- Witness for C2 at a concrete server, verdict and request. -/
theorem c2_sig_failure_witness :
    S3.Server.ServeHTTP (fun _ => "") (fun bs => bs) (fun _ => "")
        (S3.WithAuthStore S3.CredentialStore.empty (S3.NewFileServer "/data" []))
        (.fail 0) ⟨.get, "/b/k", "", "", "", false, []⟩ 0 S3.FS.empty
      = (S3.WriteError (S3.ErrSignature (.fail 0)), S3.FS.empty) :=
  c2_sig_failure_writes_one_error_and_dispatches_nothing _ _ _ _ _ _ _ _
    (by decide) (by decide)

/-- C8: `NewFileServer` with no options installs no credential store, and on a
server whose credential store is absent `ServeHTTP` never consults the
verification verdict: for every verdict the request goes straight to the
method dispatch switch. -/
theorem c8_no_credentials_skips_verification
    (md5 : List Nat → String) (decode : List Nat → List Nat)
    (fmtTime : Int → String) (basePath : String) (v : S3.SigResult)
    (r : S3.Request) (now : Int) (fs : S3.FS) :
    (S3.NewFileServer basePath []).credentials = none
    ∧ (S3.NewFileServer basePath []).ServeHTTP md5 decode fmtTime v r now fs
      = (S3.NewFileServer basePath []).dispatch md5 decode fmtTime r now fs := by
  refine ⟨rfl, ?_⟩
  simp [S3.Server.ServeHTTP, S3.NewFileServer]

/-- Helper for C3: folding `Put` over any starting store, `Get` answers with
the last matching `Put`, falling back to the starting store. -/
theorem credStore_foldl_get (k : String) :
    ∀ (ps : List S3.Credentials) (st : S3.CredentialStore),
      S3.CredentialStore.Get (ps.foldl S3.CredentialStore.Put st) k =
        match (ps.filter fun c => c.AccessKey == k).getLast? with
        | some c => (c, true)
        | none => st.Get k := by
  intro ps
  induction ps with
  | nil => intro st; rfl
  | cons c rest ih =>
    intro st
    rw [List.foldl_cons, ih, List.filter_cons]
    by_cases h : c.AccessKey = k
    · have hb : (c.AccessKey == k) = true := by simp [h]
      simp only [hb, if_true]
      cases hfl : rest.filter (fun c => c.AccessKey == k) with
      | nil =>
        simp [S3.CredentialStore.Put, S3.CredentialStore.Get, h.symm]
      | cons d t =>
        rw [List.getLast?_cons_cons]
        cases hgl : (d :: t).getLast? with
        | some e => rfl
        | none => exact absurd (List.getLast?_eq_none_iff.mp hgl) (by simp)
    · have hb : (c.AccessKey == k) = false := by simp [h]
      simp only [hb, Bool.false_eq_true, if_false]
      cases (rest.filter fun c => c.AccessKey == k).getLast? with
      | some d => rfl
      | none =>
        have hne : (if k = c.AccessKey then some c else st k) = st k :=
          if_neg fun hk => h hk.symm
        simp [S3.CredentialStore.Put, S3.CredentialStore.Get, hne]

/-- C3: after any finite sequence of `Put` calls on the default credential
store, `Get(accessKey)` answers with the credential of the most recent `Put`
carrying that access key (paired with `true`), and with the zero credential
and `false` — no error — when no such `Put` occurred. -/
theorem c3_credstore_last_put_wins (ps : List S3.Credentials) (k : String) :
    S3.CredentialStore.Get (ps.foldl S3.CredentialStore.Put S3.CredentialStore.empty) k =
      match (ps.filter fun c => c.AccessKey == k).getLast? with
      | some c => (c, true)
      | none => (⟨"", ""⟩, false) := by
  rw [credStore_foldl_get]
  cases (ps.filter fun c => c.AccessKey == k).getLast? with
  | some c => rfl
  | none => rfl

/-- C4: a PUT with the streaming payload sentinel in `X-Amz-Content-Sha256`
but an absent `X-Amz-Decoded-Content-Length` is answered with the bad-request
error response, and the filesystem is returned unchanged — no object write
happens. -/
theorem c4_streaming_put_without_decoded_length_bad_request
    (md5 : List Nat → String) (decode : List Nat → List Nat) (s : S3.Server)
    (r : S3.Request) (now : Int) (fs : S3.FS) (bname key : String)
    (hm : r.method = .put)
    (huri : S3.requestURI r = [bname, key])
    (hsha : r.contentSha256 = S3.streamingSentinel)
    (hlen : r.decodedContentLength = "") :
    s.HandlePutObject md5 decode r now fs = (S3.WriteError (S3.ErrWith 400), fs) := by
  simp [S3.Server.HandlePutObject, hm, huri, hsha, hlen]

/-- Witness for C4 at a concrete streaming PUT request without the
decoded-content-length header. -/
theorem c4_streaming_put_witness :
    S3.Server.HandlePutObject (fun _ => "") (fun bs => bs)
        (S3.NewFileServer "/data" [])
        ⟨.put, "/b/k", "", "STREAMING-AWS4-HMAC-SHA256-PAYLOAD", "", false, [1]⟩
        0 S3.FS.empty
      = (S3.WriteError (S3.ErrWith 400), S3.FS.empty) :=
  c4_streaming_put_without_decoded_length_bad_request _ _ _ _ _ _ "b" "k"
    (by decide) (by decide) (by decide) (by decide)

/-- C5: a `PutObject` of a byte sequence returns metadata whose
`ContentLength` is the number of payload bytes and whose `Digest` is the hex
digest of exactly those bytes, and a subsequent `GetObjectMetadata` on the
same key returns that same metadata record. -/
theorem c5_put_metadata_digest_and_length
    (md5 : List Nat → String) (f : S3.FileBucket) (key ct : String)
    (bs : List Nat) (now : Int) (fs : S3.FS) (meta0 : S3.Metadata) :
    ((f.PutObject md5 ⟨key, ct, meta0, bs⟩ now fs).1.ContentLength = bs.length
      ∧ (f.PutObject md5 ⟨key, ct, meta0, bs⟩ now fs).1.Digest = md5 bs)
    ∧ f.GetObjectMetadata key (f.PutObject md5 ⟨key, ct, meta0, bs⟩ now fs).2
      = .ok (some (f.PutObject md5 ⟨key, ct, meta0, bs⟩ now fs).1) := by
  refine ⟨⟨rfl, rfl⟩, ?_⟩
  simp [S3.FileBucket.PutObject, S3.FileBucket.PutObjectMetadata,
    S3.FileBucket.GetObjectMetadata, S3.FS.write]

/-- C6: when no content file exists for a key, `GetObject` returns `nil`
without an error, and the GET handler answers such an absence with the
not-found (404) error response, not an internal error. -/
theorem c6_get_absent_returns_none_and_404
    (md5 : List Nat → String) (fmtTime : Int → String) (s : S3.Server)
    (r : S3.Request) (fs : S3.FS) (bname key : String)
    (hm : r.method = .get)
    (huri : S3.requestURI r = [bname, key])
    (habs : fs ((s.bucketFn bname).getObjectPath key).1 = none) :
    (s.bucketFn bname).GetObject md5 key fs = .ok (none, fs)
    ∧ s.HandleGetObject md5 fmtTime r fs = (S3.WriteError (S3.ErrWith 404), fs) := by
  have hget : (s.bucketFn bname).GetObject md5 key fs = .ok (none, fs) := by
    simp [S3.FileBucket.GetObject, habs]
  refine ⟨hget, ?_⟩
  simp [S3.Server.HandleGetObject, hm, huri, hget]

/-- Witness for C6 at a concrete GET of a never-stored key on the empty
filesystem. -/
theorem c6_get_absent_witness :
    ((S3.NewFileServer "/data" []).bucketFn "b").GetObject (fun _ => "") "k" S3.FS.empty
      = .ok (none, S3.FS.empty)
    ∧ S3.Server.HandleGetObject (fun _ => "") (fun _ => "")
        (S3.NewFileServer "/data" []) ⟨.get, "/b/k", "", "", "", false, []⟩ S3.FS.empty
      = (S3.WriteError (S3.ErrWith 404), S3.FS.empty) :=
  c6_get_absent_returns_none_and_404 _ _ _ _ _ "b" "k" (by decide) (by decide) (by decide)

/-- C7: a PUT whose `X-Amz-Content-Sha256` is not the streaming sentinel hands
the bucket's `PutObject` exactly the raw request body: the handler equals
`PutObject` applied to the unwrapped body bytes (the chunked decoder is never
applied), followed by the quoted-digest `Etag`, `200`, and an empty body. -/
theorem c7_nonstreaming_put_passes_raw_body
    (md5 : List Nat → String) (decode : List Nat → List Nat) (s : S3.Server)
    (r : S3.Request) (now : Int) (fs : S3.FS) (bname key : String)
    (hm : r.method = .put)
    (huri : S3.requestURI r = [bname, key])
    (hsha : r.contentSha256 ≠ S3.streamingSentinel) :
    s.HandlePutObject md5 decode r now fs =
      ([.header "Etag" ("\"" ++ ((s.bucketFn bname).PutObject md5
          ⟨key, r.contentType, ⟨"", 0, "", now⟩, r.body⟩ now fs).1.Digest ++ "\""),
        .status 200, .body []],
       ((s.bucketFn bname).PutObject md5
          ⟨key, r.contentType, ⟨"", 0, "", now⟩, r.body⟩ now fs).2) := by
  simp [S3.Server.HandlePutObject, hm, huri, hsha]

/-- Witness for C7 at a concrete non-streaming PUT: the response carries the
digest of the raw body bytes. -/
theorem c7_nonstreaming_put_witness :
    (S3.Server.HandlePutObject (fun _ => "d") (fun _ => [])
        (S3.NewFileServer "/data" [])
        ⟨.put, "/b/k", "text/plain", "", "", false, [9]⟩ 3 S3.FS.empty).1
      = [.header "Etag" "\"d\"", .status 200, .body []] := by
  rw [c7_nonstreaming_put_passes_raw_body (fun _ => "d") (fun _ => [])
    (S3.NewFileServer "/data" []) ⟨.put, "/b/k", "text/plain", "", "", false, [9]⟩
    3 S3.FS.empty "b" "k" (by decide) (by decide) (by decide)]
  decide

/-- C9: when `DeleteObject` returns an error — e.g. the key's content file
does not exist — `HandleDeleteObject` writes the internal-error (500) response
and, lacking a return, still writes the 200 status and the empty body. -/
theorem c9_delete_error_writes_500_then_200
    (s : S3.Server) (r : S3.Request) (fs : S3.FS) (bname key : String)
    (hm : r.method = .delete)
    (huri : S3.requestURI r = [bname, key])
    (herr : ((s.bucketFn bname).DeleteObject key fs).1.isSome = true) :
    s.HandleDeleteObject r fs =
      ([.status 500, .xmlErrorBody, .status 200, .body []],
       ((s.bucketFn bname).DeleteObject key fs).2) := by
  obtain ⟨e, he⟩ := Option.isSome_iff_exists.mp herr
  simp [S3.Server.HandleDeleteObject, hm, huri, he, S3.WriteError, S3.ErrWith]

/-- Witness for C9: deleting a never-stored key on the empty filesystem. -/
theorem c9_delete_error_witness :
    S3.Server.HandleDeleteObject (S3.NewFileServer "/data" [])
        ⟨.delete, "/b/k", "", "", "", false, []⟩ S3.FS.empty
      = ([.status 500, .xmlErrorBody, .status 200, .body []],
        (((S3.NewFileServer "/data" []).bucketFn "b").DeleteObject "k" S3.FS.empty).2) :=
  c9_delete_error_writes_500_then_200 _ _ _ "b" "k" (by decide) (by decide) (by decide)

/-- C10: `GetObject` on a key whose content file exists but whose metadata
file is absent synthesizes metadata — digest of the stored bytes, content type
`application/octet-stream`, the file's modification time — and persists it at
the metadata path before returning the object carrying it. -/
theorem c10_get_synthesizes_and_persists_metadata
    (md5 : List Nat → String) (f : S3.FileBucket) (key : String)
    (bs : List Nat) (t : Int) (fs : S3.FS)
    (hc : fs (f.getObjectPath key).1 = some (.bytes bs t))
    (hmabs : fs (f.getObjectPath key).2 = none) :
    f.GetObject md5 key fs =
      .ok (some ⟨key, "application/octet-stream",
            ⟨md5 bs, bs.length, "application/octet-stream", t⟩, bs⟩,
          fs.write (f.getObjectPath key).2
            (.meta ⟨md5 bs, bs.length, "application/octet-stream", t⟩)) := by
  simp [S3.FileBucket.GetObject, S3.FileBucket.GetObjectMetadata,
    S3.FileBucket.createMetadataFromFile, S3.FileBucket.PutObjectMetadata,
    hc, hmabs, S3.FileData.contentBytes]

/-- Witness for C10 at a concrete filesystem holding only a content file. -/
theorem c10_get_synthesizes_witness :
    S3.FileBucket.GetObject (fun _ => "d") ⟨"/d", "b", false⟩ "k"
        (S3.FS.empty.write "/d/b/k/.content" (.bytes [1, 2] 3))
      = .ok (some ⟨"k", "application/octet-stream",
            ⟨"d", 2, "application/octet-stream", 3⟩, [1, 2]⟩,
          (S3.FS.empty.write "/d/b/k/.content" (.bytes [1, 2] 3)).write
            (S3.FileBucket.getObjectPath ⟨"/d", "b", false⟩ "k").2
            (.meta ⟨"d", 2, "application/octet-stream", 3⟩)) :=
  c10_get_synthesizes_and_persists_metadata (fun _ => "d") ⟨"/d", "b", false⟩ "k"
    [1, 2] 3 (S3.FS.empty.write "/d/b/k/.content" (.bytes [1, 2] 3))
    (by decide) (by decide)
